import Mathlib

set_option maxRecDepth 40000

/-!
Shallow embedding of the LPAK bundle reader (untangle.py).

A byte source is a `List Nat` (each element a byte value).  Reads are
positional: the Python code performs an explicit `seek` before every read,
so every read is modelled as `readBytes src pos n`, which fails with
`PError.truncatedInput` exactly when fewer than `n` bytes remain at `pos`
(Python's `struct.unpack_from` raises `struct.error` on a short buffer).
Filenames are kept as raw byte lists; Python's `bytes.decode()` (strict
UTF-8) is modelled by the `validUtf8` predicate, failure becoming
`PError.decodeError`.
-/

inductive Endianness
  | be
  | le
deriving DecidableEq

inductive PError
  | unrecognizedFormat
  | unsupportedVersion
  | truncatedInput
  | decodeError
deriving DecidableEq

/-- The FileObject dataclass of untangle.py, with the filename kept as its
byte sequence. -/
structure FileObject where
  offset : Nat
  size : Nat
  compressed_size : Nat
  compressed : Bool
  filename : List Nat
deriving DecidableEq

/-- Model of `self.file.seek(pos)` followed by `struct.unpack_from` on
`self.file.read(n)`: succeeds with the `n` bytes at `pos` when they all
exist, otherwise `struct.error`, i.e. `truncatedInput`. -/
def readBytes (src : List Nat) (pos n : Nat) : Except PError (List Nat) :=
  if pos + n ≤ src.length then .ok ((src.drop pos).take n) else .error .truncatedInput

/-- Decoding of an unsigned integer field from its bytes, per the
endianness selected at construction (struct format `>` or `<`). -/
def decodeUInt : Endianness → List Nat → Nat
  | .be, bs => bs.foldl (fun a b => 256 * a + b) 0
  | .le, bs => bs.foldr (fun b a => 256 * a + b) 0

/-- Lower bound of the second byte of a 3-byte UTF-8 sequence. -/
def contLo3 (b : Nat) : Nat := if b = 224 then 160 else 128

/-- Upper bound of the second byte of a 3-byte UTF-8 sequence (excludes
surrogates for lead byte 237). -/
def contHi3 (b : Nat) : Nat := if b = 237 then 159 else 191

/-- Lower bound of the second byte of a 4-byte UTF-8 sequence. -/
def contLo4 (b : Nat) : Nat := if b = 240 then 144 else 128

/-- Upper bound of the second byte of a 4-byte UTF-8 sequence. -/
def contHi4 (b : Nat) : Nat := if b = 244 then 143 else 191

/-- Strict UTF-8 validity of a byte sequence, as enforced by Python's
`bytes.decode()` (rejects overlong forms, surrogates and values above
U+10FFFF). -/
def validUtf8 : List Nat → Bool
  | [] => true
  | b :: rest =>
    if b ≤ 127 then validUtf8 rest
    else if b ≤ 193 then false
    else if b ≤ 223 then
      match rest with
      | c1 :: r => if 128 ≤ c1 ∧ c1 ≤ 191 then validUtf8 r else false
      | [] => false
    else if b ≤ 239 then
      match rest with
      | c1 :: c2 :: r =>
        if (contLo3 b ≤ c1 ∧ c1 ≤ contHi3 b) ∧ (128 ≤ c2 ∧ c2 ≤ 191) then validUtf8 r
        else false
      | _ => false
    else if b ≤ 244 then
      match rest with
      | c1 :: c2 :: c3 :: r =>
        if (contLo4 b ≤ c1 ∧ c1 ≤ contHi4 b) ∧ (128 ≤ c2 ∧ c2 ≤ 191) ∧ (128 ≤ c3 ∧ c3 ≤ 191) then
          validUtf8 r
        else false
      | _ => false
    else false

namespace LPAK

/-- Magic detection, `LPAKParser.__init__` lines 41-47: read the 4 magic bytes (format
`<4s`, endianness-independent) and select the endianness, or fail. -/
def parseMagic (src : List Nat) : Except PError Endianness :=
  match readBytes src 0 4 with
  | .error err => .error err
  | .ok m =>
    if m = [76, 80, 65, 75] then .ok .be
    else if m = [75, 65, 80, 76] then .ok .le
    else .error .unrecognizedFormat

/-- The loop of `LPAKParser.parse_files_v1` lines 83-91, recursing on the
number of remaining entries.  Arguments after the table locations: current
entry index `i`, remaining entry count, running `current_name_offset`. -/
def parseEntries (e : Endianness) (src : List Nat)
    (start_of_file_entries start_of_file_names start_of_data : Nat) :
    Nat → Nat → Nat → Except PError (List FileObject)
  | _i, 0, _cno => .ok []
  | i, n + 1, cno =>
    match readBytes src (start_of_file_entries + i * 20) 20 with
    | .error err => .error err
    | .ok rec20 =>
      let entry_offset := decodeUInt e (rec20.take 4)
      let _name_offset := decodeUInt e ((rec20.drop 4).take 4)
      let size := decodeUInt e ((rec20.drop 8).take 4)
      let compressed_size := decodeUInt e ((rec20.drop 12).take 4)
      let compressed := decodeUInt e ((rec20.drop 16).take 4)
      match readBytes src (start_of_file_names + cno) 255 with
      | .error err => .error err
      | .ok nameWindow =>
        let file_name := nameWindow.takeWhile (fun b => b != 0)
        if validUtf8 file_name then
          match parseEntries e src start_of_file_entries start_of_file_names start_of_data
              (i + 1) n (cno + file_name.length + 1) with
          | .error err => .error err
          | .ok rest =>
            .ok (FileObject.mk (entry_offset + start_of_data) size compressed_size
              (compressed != 0) file_name :: rest)
        else .error .decodeError

/-- Header and table walk, `LPAKParser.parse_files_v1` lines 77-91: decode the seven unsigned
32-bit header fields at byte offset 12 (one 28-byte read), compute
`num_files` by floor division by the 20-byte record size, then walk the
entry table. -/
def parse_files_v1 (e : Endianness) (src : List Nat) : Except PError (List FileObject) :=
  match readBytes src 12 28 with
  | .error err => .error err
  | .ok hdr =>
    let start_of_file_entries := decodeUInt e (hdr.take 4)
    let start_of_file_names := decodeUInt e ((hdr.drop 4).take 4)
    let start_of_data := decodeUInt e ((hdr.drop 8).take 4)
    let size_of_file_entries := decodeUInt e ((hdr.drop 16).take 4)
    parseEntries e src start_of_file_entries start_of_file_names start_of_data
      0 (size_of_file_entries / 20) 0

/-- Version gate, `LPAKParser.parse_files` lines 62-71: decode the unsigned 16-bit
version field at byte offset 6 and reject values at or above 16320. -/
def parse_files (e : Endianness) (src : List Nat) : Except PError (List FileObject) :=
  match readBytes src 6 2 with
  | .error err => .error err
  | .ok vb =>
    if 16320 ≤ decodeUInt e vb then .error .unsupportedVersion
    else parse_files_v1 e src

/-- Whole-bundle parsing: `LPAKParser.__init__` (magic/endianness
detection followed by `parse_files`), producing the `file_objects` list. -/
def parse (src : List Nat) : Except PError (List FileObject) :=
  match parseMagic src with
  | .error err => .error err
  | .ok e => parse_files e src

end LPAK

deriving instance DecidableEq for Except

/-!
Canonical bundle encodings.  A `LogicalBundle` is the abstract content of a
bundle (spec section 6); `encodeBundle` lays it out with the header at
offset 0, the entry table at offset 40, the name table right after it and
255 bytes of zero padding at the end, and serializes every multi-byte
field with a chosen endianness.  These definitions support the claims that
compare the two byte orders and that characterize the records produced
from a given table content.
-/

/-- Encode an unsigned 16-bit value on 2 bytes. -/
def encodeU16 : Endianness → Nat → List Nat
  | .be, v => [v / 256 % 256, v % 256]
  | .le, v => [v % 256, v / 256 % 256]

/-- Encode an unsigned 32-bit value on 4 bytes. -/
def encodeU32 : Endianness → Nat → List Nat
  | .be, v => [v / 16777216 % 256, v / 65536 % 256, v / 256 % 256, v % 256]
  | .le, v => [v % 256, v / 256 % 256, v / 65536 % 256, v / 16777216 % 256]

/-- The magic tag announcing each byte order. -/
def magicBytes : Endianness → List Nat
  | .be => [76, 80, 65, 75]
  | .le => [75, 65, 80, 76]

/-- One 20-byte entry record of the on-disk table. -/
structure LEntry where
  entry_offset : Nat
  name_offset : Nat
  size : Nat
  compressed_size : Nat
  compressed_flag : Nat
deriving DecidableEq

/-- Abstract bundle content: version, data-region base, the stored
`size_of_file_entries` header field, the entry table and the name table
(one name per entry, without terminators). -/
structure LogicalBundle where
  version : Nat
  start_of_data : Nat
  size_of_file_entries : Nat
  entries : List LEntry
  names : List (List Nat)

/-- Serialize one entry record (5 unsigned 32-bit fields, 20 bytes). -/
def encodeEntry (e : Endianness) (ent : LEntry) : List Nat :=
  encodeU32 e ent.entry_offset ++ encodeU32 e ent.name_offset ++ encodeU32 e ent.size ++
    encodeU32 e ent.compressed_size ++ encodeU32 e ent.compressed_flag

/-- The name table: each name followed by its null terminator. -/
def nameBlob (names : List (List Nat)) : List Nat :=
  (names.map (fun nm => nm ++ [0])).flatten

/-- The 40-byte header: magic, 2 padding bytes, version, 4 padding bytes,
then the seven unsigned 32-bit fields of `parse_files_v1` (entry table at
40, name table right after the entry table). -/
def headerBytes (e : Endianness) (b : LogicalBundle) : List Nat :=
  magicBytes e ++ [0, 0] ++ encodeU16 e b.version ++ [0, 0, 0, 0] ++
    encodeU32 e 40 ++ encodeU32 e (40 + 20 * b.entries.length) ++
    encodeU32 e b.start_of_data ++ encodeU32 e 0 ++ encodeU32 e b.size_of_file_entries ++
    encodeU32 e 0 ++ encodeU32 e 0

/-- Full canonical serialization of a bundle. -/
def encodeBundle (e : Endianness) (b : LogicalBundle) : List Nat :=
  headerBytes e b ++ (b.entries.map (encodeEntry e)).flatten ++ nameBlob b.names ++
    List.replicate 255 0

/-- All five fields of an entry record fit in 32 bits. -/
abbrev WFentry (ent : LEntry) : Prop :=
  ent.entry_offset < 4294967296 ∧ ent.name_offset < 4294967296 ∧ ent.size < 4294967296 ∧
    ent.compressed_size < 4294967296 ∧ ent.compressed_flag < 4294967296

/-- A storable filename: at most 254 bytes, no null byte, bytes below 256,
valid UTF-8. -/
abbrev WFname (nm : List Nat) : Prop :=
  nm.length ≤ 254 ∧ (∀ x ∈ nm, 0 < x ∧ x < 256) ∧ validUtf8 nm = true

/-- Well-formed bundle content: one name per entry, a supported version,
32-bit header fields, a `size_of_file_entries` whose floor division by 20
matches the entry count, and storable names. -/
abbrev WF (b : LogicalBundle) : Prop :=
  b.entries.length = b.names.length ∧
  b.version < 16320 ∧
  b.start_of_data < 4294967296 ∧
  b.size_of_file_entries < 4294967296 ∧
  b.size_of_file_entries / 20 = b.entries.length ∧
  40 + 20 * b.entries.length < 4294967296 ∧
  (∀ ent ∈ b.entries, WFentry ent) ∧
  (∀ nm ∈ b.names, WFname nm)

/-- The records a bundle's table content should produce, per the spec's
record-construction rule. -/
def expectedRecords (sod : Nat) : List LEntry → List (List Nat) → List FileObject
  | ent :: es, nm :: ns =>
    FileObject.mk (ent.entry_offset + sod) ent.size ent.compressed_size
        (ent.compressed_flag != 0) nm ::
      expectedRecords sod es ns
  | _, _ => []

/-!
Helper lemmas: reads from a decomposed source, decode/encode round trips,
lengths of the serialized pieces.
-/

theorem readBytes_exact (src pre mid post : List Nat) (pos n : Nat)
    (hsrc : src = pre ++ mid ++ post) (hpre : pre.length = pos) (hmid : mid.length = n) :
    readBytes src pos n = .ok mid := by
  subst hsrc hpre hmid
  unfold readBytes
  rw [if_pos (by simp [Nat.add_assoc, Nat.le_add_right])]
  rw [List.append_assoc, List.drop_left, List.take_left]

theorem readBytes_short (src : List Nat) (pos n : Nat) (h : src.length < pos + n) :
    readBytes src pos n = .error .truncatedInput := by
  unfold readBytes
  rw [if_neg (by omega)]

theorem readBytes_error (src : List Nat) (pos n : Nat) (err : PError)
    (h : readBytes src pos n = .error err) : err = .truncatedInput := by
  unfold readBytes at h
  split at h
  · exact absurd h (by simp)
  · exact (Except.error.injEq _ _).mp h.symm

theorem decodeUInt_encodeU16 (e : Endianness) (v : Nat) (h : v < 65536) :
    decodeUInt e (encodeU16 e v) = v := by
  cases e <;> simp [decodeUInt, encodeU16] <;> omega

theorem decodeUInt_encodeU32 (e : Endianness) (v : Nat) (h : v < 4294967296) :
    decodeUInt e (encodeU32 e v) = v := by
  cases e <;> simp [decodeUInt, encodeU32] <;> omega

theorem length_encodeU16 (e : Endianness) (v : Nat) : (encodeU16 e v).length = 2 := by
  cases e <;> rfl

theorem length_encodeU32 (e : Endianness) (v : Nat) : (encodeU32 e v).length = 4 := by
  cases e <;> rfl

theorem length_magicBytes (e : Endianness) : (magicBytes e).length = 4 := by
  cases e <;> rfl

theorem length_encodeEntry (e : Endianness) (ent : LEntry) : (encodeEntry e ent).length = 20 := by
  cases e <;> simp [encodeEntry, length_encodeU32]

theorem length_headerBytes (e : Endianness) (b : LogicalBundle) :
    (headerBytes e b).length = 40 := by
  simp [headerBytes, length_magicBytes, length_encodeU16, length_encodeU32]

theorem length_entryTable (e : Endianness) (l : List LEntry) :
    ((l.map (encodeEntry e)).flatten).length = 20 * l.length := by
  induction l with
  | nil => rfl
  | cons ent t ih => simp [ih, length_encodeEntry]; omega

theorem nameBlob_append (ns : List (List Nat)) (nm : List Nat) :
    nameBlob (ns ++ [nm]) = nameBlob ns ++ (nm ++ [0]) := by
  simp [nameBlob]

theorem length_nameBlob_append (ns : List (List Nat)) (nm : List Nat) :
    (nameBlob (ns ++ [nm])).length = (nameBlob ns).length + nm.length + 1 := by
  simp [nameBlob_append]; omega

theorem takeWhile_append_zero (nm rest : List Nat) (h : ∀ x ∈ nm, x ≠ 0) :
    (nm ++ 0 :: rest).takeWhile (fun b => b != 0) = nm := by
  induction nm with
  | nil => simp [List.takeWhile]
  | cons a t ih =>
    have ha : a ≠ 0 := h a (by simp)
    simp only [List.cons_append, List.takeWhile_cons]
    rw [if_pos (by simpa using ha), ih (fun x hx => h x (by simp [hx]))]

theorem takeWhile_window (nm rest : List Nat) (hnm : ∀ x ∈ nm, x ≠ 0)
    (hlen : nm.length ≤ 254) :
    ((nm ++ 0 :: rest).take 255).takeWhile (fun b => b != 0) = nm := by
  rw [List.take_append_eq_append_take, List.take_of_length_le (by omega)]
  have h1 : 1 ≤ 255 - nm.length := by omega
  obtain ⟨k, hk⟩ : ∃ k, 255 - nm.length = k + 1 := ⟨255 - nm.length - 1, by omega⟩
  rw [hk]
  simpa using takeWhile_append_zero nm (rest.take k) hnm

theorem readBytes_ok (src : List Nat) (pos n : Nat) (h : pos + n ≤ src.length) :
    readBytes src pos n = .ok ((src.drop pos).take n) := by
  unfold readBytes
  rw [if_pos h]

theorem encodeEntry_field0 (e : Endianness) (ent : LEntry) :
    (encodeEntry e ent).take 4 = encodeU32 e ent.entry_offset := by
  cases e <;> rfl

theorem encodeEntry_field8 (e : Endianness) (ent : LEntry) :
    ((encodeEntry e ent).drop 8).take 4 = encodeU32 e ent.size := by
  cases e <;> rfl

theorem encodeEntry_field12 (e : Endianness) (ent : LEntry) :
    ((encodeEntry e ent).drop 12).take 4 = encodeU32 e ent.compressed_size := by
  cases e <;> rfl

theorem encodeEntry_field16 (e : Endianness) (ent : LEntry) :
    ((encodeEntry e ent).drop 16).take 4 = encodeU32 e ent.compressed_flag := by
  cases e <;> rfl

/-- The seven unsigned 32-bit header fields, bytes 12 to 39 of the
canonical encoding. -/
def hdrFields (e : Endianness) (b : LogicalBundle) : List Nat :=
  encodeU32 e 40 ++ encodeU32 e (40 + 20 * b.entries.length) ++ encodeU32 e b.start_of_data ++
    encodeU32 e 0 ++ encodeU32 e b.size_of_file_entries ++ encodeU32 e 0 ++ encodeU32 e 0

theorem headerBytes_decomp (e : Endianness) (b : LogicalBundle) :
    headerBytes e b =
      (magicBytes e ++ [0, 0] ++ encodeU16 e b.version ++ [0, 0, 0, 0]) ++ hdrFields e b := by
  simp [headerBytes, hdrFields, List.append_assoc]

theorem hdrFields_field0 (e : Endianness) (b : LogicalBundle) :
    (hdrFields e b).take 4 = encodeU32 e 40 := by
  cases e <;> rfl

theorem hdrFields_field4 (e : Endianness) (b : LogicalBundle) :
    ((hdrFields e b).drop 4).take 4 = encodeU32 e (40 + 20 * b.entries.length) := by
  cases e <;> rfl

theorem hdrFields_field8 (e : Endianness) (b : LogicalBundle) :
    ((hdrFields e b).drop 8).take 4 = encodeU32 e b.start_of_data := by
  cases e <;> rfl

theorem hdrFields_field16 (e : Endianness) (b : LogicalBundle) :
    ((hdrFields e b).drop 16).take 4 = encodeU32 e b.size_of_file_entries := by
  cases e <;> rfl

theorem parseEntries_encodeBundle (e : Endianness) (b : LogicalBundle) (hwf : WF b)
    (es : List LEntry) :
    ∀ (ns : List (List Nat)) (preE : List LEntry) (preN : List (List Nat)),
      b.entries = preE ++ es → b.names = preN ++ ns → preE.length = preN.length →
      LPAK.parseEntries e (encodeBundle e b) 40 (40 + 20 * b.entries.length) b.start_of_data
          preE.length es.length (nameBlob preN).length
        = .ok (expectedRecords b.start_of_data es ns) := by
  induction es with
  | nil =>
    intro ns preE preN _ _ _
    cases ns <;> simp [LPAK.parseEntries, expectedRecords]
  | cons ent es' ih =>
    intro ns preE preN hE hN hpre
    obtain ⟨hlenEN, _, _, _, _, _, hents, hnames⟩ := hwf
    -- the names list still has an element for this entry
    have hnslen : ns.length = es'.length + 1 := by
      have h1 : b.entries.length = preE.length + (es'.length + 1) := by simp [hE]
      have h2 : b.names.length = preN.length + ns.length := by simp [hN]
      omega
    cases ns with
    | nil => simp at hnslen
    | cons nm ns' =>
    have hmemE : ent ∈ b.entries := by rw [hE]; simp
    have hmemN : nm ∈ b.names := by rw [hN]; simp
    obtain ⟨hb1, _, hb2, hb3, hb4⟩ := hents ent hmemE
    obtain ⟨hnm254, hnmBytes, hnmUtf⟩ := hnames nm hmemN
    -- step A: the 20-byte entry record read
    have hA : readBytes (encodeBundle e b) (40 + preE.length * 20) 20 = .ok (encodeEntry e ent) := by
      apply readBytes_exact _
        (headerBytes e b ++ (preE.map (encodeEntry e)).flatten)
        (encodeEntry e ent)
        ((es'.map (encodeEntry e)).flatten ++ (nameBlob b.names ++ List.replicate 255 0))
      · simp only [encodeBundle, hE, List.map_append, List.map_cons, List.flatten_append,
          List.flatten_cons, List.append_assoc]
      · rw [List.length_append, length_headerBytes, length_entryTable]; omega
      · exact length_encodeEntry e ent
    -- step B: the 255-byte name window read
    have hNB : nameBlob b.names = nameBlob preN ++ (nm ++ 0 :: nameBlob ns') := by
      rw [hN]
      simp only [nameBlob, List.map_append, List.map_cons, List.flatten_append,
        List.flatten_cons, List.append_assoc, List.cons_append, List.nil_append,
        List.singleton_append]
    have hdecomp : encodeBundle e b =
        (headerBytes e b ++ (b.entries.map (encodeEntry e)).flatten ++ nameBlob preN) ++
          (nm ++ 0 :: (nameBlob ns' ++ List.replicate 255 0)) := by
      simp only [encodeBundle, hNB, List.append_assoc, List.cons_append, List.nil_append]
    have hplen : (headerBytes e b ++ (b.entries.map (encodeEntry e)).flatten ++
        nameBlob preN).length = 40 + 20 * b.entries.length + (nameBlob preN).length := by
      rw [List.append_assoc, List.length_append, length_headerBytes, List.length_append,
        length_entryTable]
      omega
    have hB : readBytes (encodeBundle e b)
        (40 + 20 * b.entries.length + (nameBlob preN).length) 255 =
        .ok ((nm ++ 0 :: (nameBlob ns' ++ List.replicate 255 0)).take 255) := by
      rw [hdecomp, readBytes_ok _ _ 255 ?_, ← hplen, List.drop_left]
      rw [List.length_append, hplen]
      simp only [List.length_append, List.length_cons, List.length_replicate]
      omega
    -- the window yields exactly this entry's name
    have hW : ((nm ++ 0 :: (nameBlob ns' ++ List.replicate 255 0)).take 255).takeWhile
        (fun x => x != 0) = nm :=
      takeWhile_window _ _ (fun x hx => (hnmBytes x hx).1.ne') hnm254
    -- decoded entry fields
    have hoff : decodeUInt e ((encodeEntry e ent).take 4) = ent.entry_offset := by
      rw [encodeEntry_field0, decodeUInt_encodeU32 e _ hb1]
    have hsz : decodeUInt e (((encodeEntry e ent).drop 8).take 4) = ent.size := by
      rw [encodeEntry_field8, decodeUInt_encodeU32 e _ hb2]
    have hcsz : decodeUInt e (((encodeEntry e ent).drop 12).take 4) = ent.compressed_size := by
      rw [encodeEntry_field12, decodeUInt_encodeU32 e _ hb3]
    have hcf : decodeUInt e (((encodeEntry e ent).drop 16).take 4) = ent.compressed_flag := by
      rw [encodeEntry_field16, decodeUInt_encodeU32 e _ hb4]
    -- the recursive call, via the induction hypothesis
    have hrec : LPAK.parseEntries e (encodeBundle e b) 40 (40 + 20 * b.entries.length)
        b.start_of_data (preE.length + 1) es'.length ((nameBlob preN).length + nm.length + 1) =
        .ok (expectedRecords b.start_of_data es' ns') := by
      have h3 := ih ns' (preE ++ [ent]) (preN ++ [nm])
        (by rw [hE]; simp) (by rw [hN]; simp) (by simp [hpre])
      simpa [length_nameBlob_append] using h3
    -- assemble one unfolding of the loop
    simp only [List.length_cons, LPAK.parseEntries, hA, hB, hW, hoff, hsz, hcsz, hcf,
      hnmUtf, if_true, hrec, expectedRecords]

theorem length_hdrFields (e : Endianness) (b : LogicalBundle) : (hdrFields e b).length = 28 := by
  simp [hdrFields, length_encodeU32]

theorem parse_encodeBundle (e : Endianness) (b : LogicalBundle) (hwf : WF b) :
    LPAK.parse (encodeBundle e b) = .ok (expectedRecords b.start_of_data b.entries b.names) := by
  obtain ⟨hlen, hver, hsod, hsfe, hdiv, hson, hents, hnames⟩ := hwf
  have hmagic4 : readBytes (encodeBundle e b) 0 4 = .ok (magicBytes e) := by
    apply readBytes_exact _ [] (magicBytes e)
      (([0, 0] ++ encodeU16 e b.version ++ [0, 0, 0, 0] ++ hdrFields e b) ++
        ((b.entries.map (encodeEntry e)).flatten ++ (nameBlob b.names ++ List.replicate 255 0)))
    · simp only [encodeBundle, headerBytes_decomp, List.append_assoc, List.cons_append,
        List.nil_append]
    · rfl
    · exact length_magicBytes e
  have hM : LPAK.parseMagic (encodeBundle e b) = .ok e := by
    cases e <;> simp [LPAK.parseMagic, hmagic4, magicBytes]
  have hv2 : readBytes (encodeBundle e b) 6 2 = .ok (encodeU16 e b.version) := by
    apply readBytes_exact _ (magicBytes e ++ [0, 0]) (encodeU16 e b.version)
      (([0, 0, 0, 0] ++ hdrFields e b) ++
        ((b.entries.map (encodeEntry e)).flatten ++ (nameBlob b.names ++ List.replicate 255 0)))
    · simp only [encodeBundle, headerBytes_decomp, List.append_assoc, List.cons_append,
        List.nil_append]
    · rw [List.length_append, length_magicBytes]; rfl
    · exact length_encodeU16 e b.version
  have hhdr : readBytes (encodeBundle e b) 12 28 = .ok (hdrFields e b) := by
    apply readBytes_exact _ (magicBytes e ++ [0, 0] ++ encodeU16 e b.version ++ [0, 0, 0, 0])
      (hdrFields e b)
      ((b.entries.map (encodeEntry e)).flatten ++ (nameBlob b.names ++ List.replicate 255 0))
    · simp only [encodeBundle, headerBytes_decomp, List.append_assoc, List.cons_append,
        List.nil_append]
    · simp [length_magicBytes, length_encodeU16]
    · exact length_hdrFields e b
  have h40 : decodeUInt e ((hdrFields e b).take 4) = 40 := by
    rw [hdrFields_field0, decodeUInt_encodeU32 e _ (by norm_num)]
  have hsonv : decodeUInt e (((hdrFields e b).drop 4).take 4) = 40 + 20 * b.entries.length := by
    rw [hdrFields_field4, decodeUInt_encodeU32 e _ hson]
  have hsodv : decodeUInt e (((hdrFields e b).drop 8).take 4) = b.start_of_data := by
    rw [hdrFields_field8, decodeUInt_encodeU32 e _ hsod]
  have hsfev : decodeUInt e (((hdrFields e b).drop 16).take 4) = b.size_of_file_entries := by
    rw [hdrFields_field16, decodeUInt_encodeU32 e _ hsfe]
  have hloop := parseEntries_encodeBundle e b
    ⟨hlen, hver, hsod, hsfe, hdiv, hson, hents, hnames⟩ b.entries b.names [] [] rfl rfl rfl
  simp only [List.length_nil, nameBlob, List.map_nil, List.flatten_nil] at hloop
  simp only [LPAK.parse, hM, LPAK.parse_files, hv2,
    decodeUInt_encodeU16 e b.version (by omega), LPAK.parse_files_v1, hhdr,
    h40, hsonv, hsodv, hsfev, hdiv]
  rw [if_neg (by omega)]
  exact hloop

theorem parseEntries_ok_length (e : Endianness) (src : List Nat) (soe son sod : Nat) :
    ∀ (n i cno : Nat) (rs : List FileObject),
      LPAK.parseEntries e src soe son sod i n cno = .ok rs → rs.length = n := by
  intro n
  induction n with
  | zero =>
    intro i cno rs h
    simp only [LPAK.parseEntries] at h
    cases h
    rfl
  | succ n ih =>
    intro i cno rs h
    simp only [LPAK.parseEntries] at h
    split at h
    · exact absurd h (by simp)
    · split at h
      · exact absurd h (by simp)
      · split at h
        · split at h
          · exact absurd h (by simp)
          · cases h
            simp only [List.length_cons]
            rw [ih _ _ _ (by assumption)]
        · exact absurd h (by simp)

theorem parseEntries_not_unsupported (e : Endianness) (src : List Nat) (soe son sod : Nat) :
    ∀ (n i cno : Nat),
      LPAK.parseEntries e src soe son sod i n cno ≠ .error .unsupportedVersion := by
  intro n
  induction n with
  | zero =>
    intro i cno h
    simp [LPAK.parseEntries] at h
  | succ n ih =>
    intro i cno h
    simp only [LPAK.parseEntries] at h
    split at h
    · rename_i err heq
      rw [readBytes_error _ _ _ _ heq] at h
      simp at h
    · split at h
      · rename_i err heq
        rw [readBytes_error _ _ _ _ heq] at h
        simp at h
      · split at h
        · split at h
          · rename_i heq
            exact ih _ _ (heq.trans ((Except.error.injEq _ _).mpr (by injection h)))
          · simp at h
        · simp at h

theorem parse_files_v1_not_unsupported (e : Endianness) (src : List Nat) :
    LPAK.parse_files_v1 e src ≠ .error .unsupportedVersion := by
  intro h
  simp only [LPAK.parse_files_v1] at h
  split at h
  · rename_i err heq
    rw [readBytes_error _ _ _ _ heq] at h
    simp at h
  · exact parseEntries_not_unsupported e src _ _ _ _ _ _ h

theorem parseEntries_ok_valid_utf8 (e : Endianness) (src : List Nat) (soe son sod : Nat) :
    ∀ (n i cno : Nat) (rs : List FileObject),
      LPAK.parseEntries e src soe son sod i n cno = .ok rs →
      ∀ r ∈ rs, validUtf8 r.filename = true := by
  intro n
  induction n with
  | zero =>
    intro i cno rs h
    simp only [LPAK.parseEntries] at h
    cases h
    intro r hr
    simp at hr
  | succ n ih =>
    intro i cno rs h
    simp only [LPAK.parseEntries] at h
    split at h
    · exact absurd h (by simp)
    · split at h
      · exact absurd h (by simp)
      · split at h
        · split at h
          · exact absurd h (by simp)
          · cases h
            intro r hr
            rcases List.mem_cons.mp hr with hr | hr
            · subst hr
              assumption
            · exact ih _ _ _ (by assumption) r hr
        · exact absurd h (by simp)

theorem readBytes_ok_eq (src : List Nat) (pos n : Nat) (bs : List Nat)
    (h : readBytes src pos n = .ok bs) : bs = (src.drop pos).take n := by
  unfold readBytes at h
  split at h
  · injection h with heq
    exact heq.symm
  · exact absurd h (by simp)

theorem parseEntries_entry_truncated (e : Endianness) (src : List Nat)
    (soe son sod i n cno : Nat) (h : src.length < soe + i * 20 + 20) :
    LPAK.parseEntries e src soe son sod i (n + 1) cno = .error .truncatedInput := by
  simp only [LPAK.parseEntries, readBytes_short src (soe + i * 20) 20 (by omega)]

theorem expectedRecords_offsets (sod : Nat) :
    ∀ (es : List LEntry) (ns : List (List Nat)), es.length = ns.length →
      (expectedRecords sod es ns).map FileObject.offset =
        es.map (fun ent => ent.entry_offset + sod) := by
  intro es
  induction es with
  | nil =>
    intro ns h
    cases ns with
    | nil => rfl
    | cons nm ns' => simp at h
  | cons ent es' ih =>
    intro ns h
    cases ns with
    | nil => simp at h
    | cons nm ns' =>
      simp only [expectedRecords, List.map_cons]
      rw [ih ns' (by simpa using h)]

/-!
The claims.
-/

/-- Claim C1: filenames are resolved by sequential consumption of the name
table, never through the per-entry `name_offset` field: for three entries
whose name table holds a.txt, bb.txt and c (null-terminated), the decoded
filenames are exactly those three names in order, for any values of the
three entries' `name_offset` fields (and of their other fields). -/
theorem C1_sequential_name_consumption (e : Endianness) (ver sod sfe : Nat)
    (e1 e2 e3 : LEntry)
    (hwf : WF (LogicalBundle.mk ver sod sfe [e1, e2, e3]
      [[97, 46, 116, 120, 116], [98, 98, 46, 116, 120, 116], [99]])) :
    nameBlob [[97, 46, 116, 120, 116], [98, 98, 46, 116, 120, 116], [99]] =
        [97, 46, 116, 120, 116, 0, 98, 98, 46, 116, 120, 116, 0, 99, 0] ∧
    (LPAK.parse (encodeBundle e (LogicalBundle.mk ver sod sfe [e1, e2, e3]
        [[97, 46, 116, 120, 116], [98, 98, 46, 116, 120, 116], [99]]))).map
        (fun rs => rs.map FileObject.filename) =
      .ok [[97, 46, 116, 120, 116], [98, 98, 46, 116, 120, 116], [99]] := by
  refine ⟨rfl, ?_⟩
  rw [parse_encodeBundle e _ hwf]
  rfl

/-- Witness for C1 at a concrete instantiation: the three entries carry
deliberately bogus `name_offset` values 7, 123456 and 999999999, yet the
filenames come out as a.txt, bb.txt, c in order. -/
theorem C1_witness :
    (LPAK.parse (encodeBundle .be (LogicalBundle.mk 0 0 60
        [LEntry.mk 0 7 1 2 0, LEntry.mk 5 123456 3 4 1, LEntry.mk 9 999999999 5 6 0]
        [[97, 46, 116, 120, 116], [98, 98, 46, 116, 120, 116], [99]]))).map
        (fun rs => rs.map FileObject.filename) =
      .ok [[97, 46, 116, 120, 116], [98, 98, 46, 116, 120, 116], [99]] :=
  (C1_sequential_name_consumption .be 0 0 60
    (LEntry.mk 0 7 1 2 0) (LEntry.mk 5 123456 3 4 1) (LEntry.mk 9 999999999 5 6 0)
    (by decide)).2

/-- A 62-byte bundle: 40-byte header (entry table at 40, name table at 60,
one 20-byte entry of zeros), then the null-terminated name c at bytes
60-61, which are the last two bytes of the source. -/
def c2src : List Nat :=
  [76, 80, 65, 75] ++ [0, 0] ++ [0, 0] ++ [0, 0, 0, 0] ++
    encodeU32 .be 40 ++ encodeU32 .be 60 ++ encodeU32 .be 0 ++ encodeU32 .be 0 ++
    encodeU32 .be 20 ++ encodeU32 .be 0 ++ encodeU32 .be 0 ++
    List.replicate 20 0 ++ [99, 0]

/-- Claim C2 is false on the code: in `c2src` the null-terminated name c
is fully present (bytes 60-61 are 99, 0), yet parsing fails with
`truncatedInput` because the name read demands 255 bytes after the name's
start offset and only 2 remain. -/
theorem C2_counterexample :
    (c2src.drop 60).take 2 = [99, 0] ∧ c2src.length = 62 ∧
    LPAK.parse c2src = .error .truncatedInput :=
  ⟨rfl, rfl, rfl⟩

/-- Claim C2 as amended: name resolution reads exactly 255 raw bytes at
`start_of_file_names + current_name_offset`; whenever fewer than 255 bytes
remain there (even if the null-terminated name is fully present), the
entry loop fails with `truncatedInput` instead of decoding the name. -/
theorem C2_name_read_needs_255 (e : Endianness) (src : List Nat)
    (soe son sod i n cno : Nat)
    (hentry : soe + i * 20 + 20 ≤ src.length) (hname : src.length < son + cno + 255) :
    LPAK.parseEntries e src soe son sod i (n + 1) cno = .error .truncatedInput := by
  simp only [LPAK.parseEntries, readBytes_ok src (soe + i * 20) 20 hentry,
    readBytes_short src (son + cno) 255 (by omega)]

/-- Witness for C2's amended statement at `c2src`: the entry record read
fits (40 + 20 = 60 ≤ 62) but only 2 bytes remain at the name's start. -/
theorem C2_witness :
    40 + 0 * 20 + 20 ≤ c2src.length ∧ c2src.length < 60 + 0 + 255 ∧
    LPAK.parseEntries .be c2src 40 60 0 0 1 0 = .error .truncatedInput :=
  ⟨by decide, by decide,
    C2_name_read_needs_255 .be c2src 40 60 0 0 0 0 (by decide) (by decide)⟩

/-- A well-formed one-entry bundle whose data-region base is far beyond
the end of the 317-byte encoded source. -/
def c3bundle : LogicalBundle :=
  LogicalBundle.mk 0 1000000 20 [LEntry.mk 0 0 4 4 0] [[97]]

def c3src : List Nat := encodeBundle .be c3bundle

/-- Claim C3 is false on the code: `c3src` parses successfully to a record
with offset 1000000 although the source is only 317 bytes long — the
parser never checks the computed offset against the source length. -/
theorem C3_counterexample :
    (LPAK.parse c3src).map (fun rs => rs.map FileObject.offset) = .ok [1000000] ∧
    c3src.length = 317 ∧ c3src.length < 1000000 :=
  ⟨rfl, rfl, by decide⟩

/-- Claim C3 as amended: each record's offset equals the entry-relative
offset plus the data-region base `start_of_data` (and, being a natural
number, is non-negative), but it need not lie within the source length:
the parser performs no bounds check on it. -/
theorem C3_offset_formula (e : Endianness) (b : LogicalBundle) (hwf : WF b) :
    (LPAK.parse (encodeBundle e b)).map (fun rs => rs.map FileObject.offset) =
      .ok (b.entries.map (fun ent => ent.entry_offset + b.start_of_data)) := by
  rw [parse_encodeBundle e b hwf]
  have h := expectedRecords_offsets b.start_of_data b.entries b.names hwf.1
  simp only [Except.map, h]

/-- Witness for C3's amended statement at a concrete two-entry bundle with
data-region base 50: offsets come out as 1 + 50 and 6 + 50. -/
theorem C3_witness :
    (LPAK.parse (encodeBundle .le (LogicalBundle.mk 0 50 40
        [LEntry.mk 1 2 3 4 5, LEntry.mk 6 7 8 9 0] [[104, 105], [33]]))).map
        (fun rs => rs.map FileObject.offset) = .ok [51, 56] :=
  C3_offset_formula .le
    (LogicalBundle.mk 0 50 40 [LEntry.mk 1 2 3 4 5, LEntry.mk 6 7 8 9 0] [[104, 105], [33]])
    (by decide)

/-- Claim C4: the first 4 bytes select the byte order — LPAK (76,80,65,75)
makes all later multi-byte fields decode big-endian, KAPL (75,65,80,76)
little-endian, and any other 4-byte tag fails with `unrecognizedFormat`
without producing a file list. -/
theorem C4_magic_dispatch (src : List Nat) (h : 4 ≤ src.length) :
    (src.take 4 = [76, 80, 65, 75] → LPAK.parse src = LPAK.parse_files .be src) ∧
    (src.take 4 = [75, 65, 80, 76] → LPAK.parse src = LPAK.parse_files .le src) ∧
    (src.take 4 ≠ [76, 80, 65, 75] → src.take 4 ≠ [75, 65, 80, 76] →
      LPAK.parse src = .error .unrecognizedFormat) := by
  have hr : readBytes src 0 4 = .ok (src.take 4) := by
    rw [readBytes_ok src 0 4 (by omega), List.drop_zero]
  refine ⟨?_, ?_, ?_⟩
  · intro h1
    simp [LPAK.parse, LPAK.parseMagic, hr, h1]
  · intro h1
    simp [LPAK.parse, LPAK.parseMagic, hr, h1]
  · intro h1 h2
    simp [LPAK.parse, LPAK.parseMagic, hr, h1, h2]

/-- Witness for C4: the 4-byte source XXXX is rejected as unrecognized. -/
theorem C4_witness : LPAK.parse [88, 88, 88, 88] = .error .unrecognizedFormat :=
  (C4_magic_dispatch [88, 88, 88, 88] (by decide)).2.2 (by decide) (by decide)

/-- Claim C5: the parser decodes one unsigned 16-bit field at byte offset
6 with the selected endianness and fails with `unsupportedVersion` exactly
when that value is at least 16320; below 16320 it proceeds to the
pre-revision layout parse, which can never itself report
`unsupportedVersion`. -/
theorem C5_version_gate (e : Endianness) (src : List Nat) (h : 8 ≤ src.length) :
    (16320 ≤ decodeUInt e ((src.drop 6).take 2) →
      LPAK.parse_files e src = .error .unsupportedVersion) ∧
    (decodeUInt e ((src.drop 6).take 2) < 16320 →
      LPAK.parse_files e src = LPAK.parse_files_v1 e src) ∧
    LPAK.parse_files_v1 e src ≠ .error .unsupportedVersion := by
  have hr : readBytes src 6 2 = .ok ((src.drop 6).take 2) := readBytes_ok src 6 2 (by omega)
  refine ⟨?_, ?_, parse_files_v1_not_unsupported e src⟩
  · intro h1
    simp only [LPAK.parse_files, hr]
    rw [if_pos h1]
  · intro h1
    simp only [LPAK.parse_files, hr]
    rw [if_neg (by omega)]

/-- Witness for C5: a valid-magic source whose big-endian version field at
offset 6 is exactly 16320 (bytes 63, 192) is rejected as unsupported. -/
theorem C5_witness :
    decodeUInt .be (([76, 80, 65, 75, 0, 0, 63, 192].drop 6).take 2) = 16320 ∧
    LPAK.parse_files .be [76, 80, 65, 75, 0, 0, 63, 192] = .error .unsupportedVersion :=
  ⟨by decide,
    (C5_version_gate .be [76, 80, 65, 75, 0, 0, 63, 192] (by decide)).1 (by decide)⟩

/-- Claim C6: whenever a bundle parses successfully, the number of records
equals the fifth of the seven unsigned 32-bit fields decoded at byte
offset 12 (that is, the 4 bytes at offset 28), floor-divided by 20. -/
theorem C6_record_count (e : Endianness) (src : List Nat) (rs : List FileObject)
    (hm : LPAK.parseMagic src = .ok e) (hp : LPAK.parse src = .ok rs) :
    rs.length = decodeUInt e ((((src.drop 12).take 28).drop 16).take 4) / 20 := by
  simp only [LPAK.parse, hm] at hp
  simp only [LPAK.parse_files] at hp
  split at hp
  · exact absurd hp (by simp)
  · split at hp
    · exact absurd hp (by simp)
    · simp only [LPAK.parse_files_v1] at hp
      split at hp
      · exact absurd hp (by simp)
      · rename_i hdr heq
        rw [readBytes_ok_eq src 12 28 hdr heq] at hp
        exact parseEntries_ok_length e src _ _ _ _ _ _ rs hp

/-- A one-entry bundle whose stored `size_of_file_entries` is 27, not a
multiple of 20. -/
def c6bundle : LogicalBundle := LogicalBundle.mk 0 0 27 [LEntry.mk 5 9 7 7 1] [[120]]

def c6src : List Nat := encodeBundle .be c6bundle

/-- Witness for C6 at `c6src`: `size_of_file_entries` is 27, the parse is
not rejected, and it returns 27 / 20 = 1 record. -/
theorem C6_witness :
    decodeUInt .be ((((c6src.drop 12).take 28).drop 16).take 4) = 27 ∧
    LPAK.parse c6src = .ok [FileObject.mk 5 7 7 true [120]] ∧
    [FileObject.mk 5 7 7 true [120]].length =
      decodeUInt .be ((((c6src.drop 12).take 28).drop 16).take 4) / 20 :=
  ⟨by decide, rfl, C6_record_count .be c6src [FileObject.mk 5 7 7 true [120]] rfl rfl⟩

/-- Claim C7: for a bundle whose entry table holds the given five-field
records at `start_of_file_entries + i * 20`, parsing produces, in on-disk
entry order, exactly the records with offset = entry offset plus
`start_of_data`, the decoded size and compressed size, and compressed set
if and only if the fifth field is nonzero. -/
theorem C7_record_construction (e : Endianness) (b : LogicalBundle) (hwf : WF b) :
    LPAK.parse (encodeBundle e b) =
      .ok (expectedRecords b.start_of_data b.entries b.names) :=
  parse_encodeBundle e b hwf

/-- Witness for C7: a concrete two-entry bundle, whose expected records
evaluate to offsets 107 and 130, the decoded sizes, and compressed flags
false (fifth field 0) and true (fifth field 2). -/
theorem C7_witness :
    LPAK.parse (encodeBundle .be (LogicalBundle.mk 3 100 40
        [LEntry.mk 7 11 13 17 0, LEntry.mk 30 0 12 6 2] [[97, 98], [122]])) =
      .ok (expectedRecords 100
        [LEntry.mk 7 11 13 17 0, LEntry.mk 30 0 12 6 2] [[97, 98], [122]]) ∧
    expectedRecords 100 [LEntry.mk 7 11 13 17 0, LEntry.mk 30 0 12 6 2] [[97, 98], [122]] =
      [FileObject.mk 107 13 17 false [97, 98], FileObject.mk 130 12 6 true [122]] :=
  ⟨C7_record_construction .be
    (LogicalBundle.mk 3 100 40 [LEntry.mk 7 11 13 17 0, LEntry.mk 30 0 12 6 2]
      [[97, 98], [122]]) (by decide), by decide⟩

/-- A source whose header claims an entry table of 5 records (the stored
table size is 100) at offset 500 with names at offset 40, but which ends
at byte 580: the first 4 records and their names are fully readable, the
5th record is not. -/
def truncated5 : List Nat :=
  [76, 80, 65, 75] ++ [0, 0] ++ [0, 0] ++ [0, 0, 0, 0] ++
    encodeU32 .be 500 ++ encodeU32 .be 40 ++ encodeU32 .be 0 ++ encodeU32 .be 0 ++
    encodeU32 .be 100 ++ encodeU32 .be 0 ++ encodeU32 .be 0 ++
    [97, 0, 98, 0, 99, 0, 100, 0] ++ List.replicate 452 0 ++ List.replicate 80 0

/-- Claim C8: a decode read past the end of the source aborts the parse
with `truncatedInput`: whenever an entry record read needs bytes beyond
the source, the loop fails immediately, and in particular `truncated5`
(header claims 5 entries, only 4 record slots present) yields the error
and never a silent 4-record list. -/
theorem C8_truncation :
    (∀ (e : Endianness) (src : List Nat) (soe son sod i n cno : Nat),
        src.length < soe + i * 20 + 20 →
        LPAK.parseEntries e src soe son sod i (n + 1) cno = .error .truncatedInput) ∧
    truncated5.length = 580 ∧
    LPAK.parse truncated5 = .error .truncatedInput :=
  ⟨fun e src soe son sod i n cno h => parseEntries_entry_truncated e src soe son sod i n cno h,
    rfl, rfl⟩

/-- Witness for C8's universally quantified part: on the empty source the
read of the first entry record is already short. -/
theorem C8_witness :
    ([] : List Nat).length < 0 + 0 * 20 + 20 ∧
    LPAK.parseEntries .be [] 0 0 0 0 1 0 = .error .truncatedInput :=
  ⟨by decide, C8_truncation.1 .be [] 0 0 0 0 0 0 (by decide)⟩

/-- Claim C9: encoding the same logical bundle with the LPAK magic and
big-endian fields or with the KAPL magic and little-endian fields yields
the same parse result — identical record sequences (offsets, sizes,
compressed flags and filenames, in the same order). -/
theorem C9_byte_order_equivalence (b : LogicalBundle) (hwf : WF b) :
    LPAK.parse (encodeBundle .be b) = LPAK.parse (encodeBundle .le b) := by
  rw [parse_encodeBundle .be b hwf, parse_encodeBundle .le b hwf]

/-- Witness for C9 at a concrete two-entry bundle, whose common parse
result also evaluates to a concrete record list. -/
theorem C9_witness :
    LPAK.parse (encodeBundle .be (LogicalBundle.mk 9 1000 40
        [LEntry.mk 21 1 22 23 0, LEntry.mk 24 2 25 26 1] [[65], [66, 67]])) =
      LPAK.parse (encodeBundle .le (LogicalBundle.mk 9 1000 40
        [LEntry.mk 21 1 22 23 0, LEntry.mk 24 2 25 26 1] [[65], [66, 67]])) ∧
    LPAK.parse (encodeBundle .be (LogicalBundle.mk 9 1000 40
        [LEntry.mk 21 1 22 23 0, LEntry.mk 24 2 25 26 1] [[65], [66, 67]])) =
      .ok [FileObject.mk 1021 22 23 false [65], FileObject.mk 1024 25 26 true [66, 67]] :=
  ⟨C9_byte_order_equivalence
    (LogicalBundle.mk 9 1000 40 [LEntry.mk 21 1 22 23 0, LEntry.mk 24 2 25 26 1]
      [[65], [66, 67]]) (by decide), rfl⟩

/-- A one-entry bundle whose name-table bytes before the terminator are
the single byte 255, which is not valid UTF-8; the magic and version
checks pass. -/
def badUtf8Src : List Nat :=
  encodeBundle .be (LogicalBundle.mk 0 0 20 [LEntry.mk 0 0 0 0 0] [[255]])

/-- Claim C10: parsing succeeds only when every filename's byte run before
its null terminator is valid UTF-8, and `badUtf8Src` — which passes the
magic, version and length checks but stores the non-UTF-8 name byte 255 —
fails with the text-decoding error, producing no record list. -/
theorem C10_utf8_gate :
    (∀ (e : Endianness) (src : List Nat) (soe son sod n i cno : Nat) (rs : List FileObject),
        LPAK.parseEntries e src soe son sod i n cno = .ok rs →
        ∀ r ∈ rs, validUtf8 r.filename = true) ∧
    LPAK.parseMagic badUtf8Src = .ok .be ∧
    (badUtf8Src.drop 60).take 2 = [255, 0] ∧
    LPAK.parse badUtf8Src = .error .decodeError :=
  ⟨fun e src soe son sod n i cno rs h =>
    parseEntries_ok_valid_utf8 e src soe son sod n i cno rs h,
    rfl, rfl, rfl⟩

/-- Witness for C10's universally quantified part: a successfully parsed
record's filename — here the single-byte name 104 — is valid UTF-8. -/
theorem C10_witness :
    validUtf8 (FileObject.mk 0 0 0 false [104]).filename = true :=
  C10_utf8_gate.1 .be
    (encodeBundle .be (LogicalBundle.mk 0 0 20 [LEntry.mk 0 0 0 0 0] [[104]]))
    40 60 0 1 0 0 [FileObject.mk 0 0 0 false [104]] rfl
    (FileObject.mk 0 0 0 false [104]) (by simp)
